import Mathlib

/-
Verification of the function-extraction core of the clepon-cli repository.

The repository contains two near-duplicate packages, `clepon` and
`clepon_cli`, each with a `services/project_service.py`.  The definitions
below are a shallow embedding of that code:

  * Python strings are Lean `String`s; the handful of `str` methods the
    code uses (`startswith`, `endswith`, slicing, `split`, `join`) are
    re-implemented over the character list so that they evaluate inside
    the kernel.
  * The Python `ast` module is external to the repository: its functions
    (`ast.parse`, `ast.get_source_segment`, `ast.unparse`) are modeled as
    components of an `AstLib` record that every embedded function takes
    as a parameter; the AST node shape follows the documented Python
    grammar.
  * The filesystem (`open(...).read()`) is a parameter of type `Fs`;
    a read failure is an `OSError` carried in the `Except` error
    position.  `ast.parse` failures are `SyntaxError`s; the two are kept
    in separate channels so that Python's `except OSError` /
    `except SyntaxError` / `except Exception` clauses can be rendered
    faithfully.
-/

/-! ## Python string primitives (modeled over the character list) -/

/-- Python `s.startswith(p)`. -/
def py_startswith (s p : String) : Bool := p.data.isPrefixOf s.data

/-- Python `s.endswith(p)`. -/
def py_endswith (s p : String) : Bool := p.data.isSuffixOf s.data

/-- Python `s[n:]` (drop the first `n` characters). -/
def py_drop (s : String) (n : Nat) : String := String.mk (s.data.drop n)

/-- Helper for `py_split_char`: the accumulator holds the current field
reversed. -/
def py_split_char_aux (sep : Char) : List Char → List Char → List String
  | [], acc => [String.mk acc.reverse]
  | c :: cs, acc =>
    if c = sep then String.mk acc.reverse :: py_split_char_aux sep cs []
    else py_split_char_aux sep cs (c :: acc)

/-- Python `s.split(sep)` for a one-character separator (keeps empty
fields, like `str.split` with an explicit separator). -/
def py_split_char (sep : Char) (s : String) : List String :=
  py_split_char_aux sep s.data []

/-- Python `s.split("\n")`. -/
def py_split_nl (s : String) : List String := py_split_char '\n' s

/-- Python `"\n".join(l)`. -/
def py_join_nl : List String → String
  | [] => ""
  | [x] => x
  | x :: y :: xs => x ++ "\n" ++ py_join_nl (y :: xs)

/-- Python `pathlib.Path(p).name`: the final path component. -/
def path_name (p : String) : String :=
  match (py_split_char '/' p).reverse with
  | [] => p
  | last :: _ => last

/-! ## The shared output record shapes (clepon/models) -/

/-- models/function_argument.py: `FunctionArgument`. -/
structure FunctionArgument where
  id : String
  argument_name : String
  argument_type : Option String
deriving DecidableEq

/-- models/function.py: `Function`. -/
structure Function where
  id : String
  source_code : String
  input : List FunctionArgument
  output_type : Option String
  file : String
deriving DecidableEq

/-! ## The Python AST, as far as the extractors inspect it

The node shape follows the documented Python ast grammar.  An annotation
or return-annotation expression is represented by an opaque textual key;
`ast.unparse` on such an expression is the `unparseE` component of
`AstLib` below. -/

/-- models `ast.arg`: a parameter name with an optional annotation
expression. -/
structure PyParam where
  arg : String
  annot : Option String
deriving DecidableEq

/-- models `ast.arguments`.  The Python grammar is
`(posonlyargs, args, vararg, kwonlyargs, kw_defaults, kwarg, defaults)`;
the two defaults fields carry no parameter names and are omitted. -/
structure PyArguments where
  posonlyargs : List PyParam
  args : List PyParam
  vararg : Option PyParam
  kwonlyargs : List PyParam
  kwarg : Option PyParam
deriving DecidableEq

/-- A Python AST node, to the extent the extractors distinguish nodes:
a plain `FunctionDef`, an `AsyncFunctionDef`, a `Lambda`, or any other
node kind (`Module`, statements, expressions, ...) reduced to the list
of its children. -/
inductive PyNode where
  | functionDef (nm : String) (lineno : Nat) (args : PyArguments)
      (ret : Option String) (body : List PyNode)
  | asyncFunctionDef (nm : String) (lineno : Nat) (args : PyArguments)
      (ret : Option String) (body : List PyNode)
  | lambdaE (body : List PyNode)
  | otherNode (body : List PyNode)

/-- The data of one `ast.FunctionDef` node, as the builders receive it. -/
structure FuncDefData where
  nm : String
  lineno : Nat
  args : PyArguments
  ret : Option String
  body : List PyNode

/-- `isinstance(node, ast.FunctionDef)`, with the node data on success.
`AsyncFunctionDef` is a distinct class in the Python ast, not a subclass
of `FunctionDef`, so it does not match. -/
def PyNode.asFunctionDef : PyNode → Option FuncDefData
  | .functionDef nm lineno args ret body => some ⟨nm, lineno, args, ret, body⟩
  | _ => none

/-- The child nodes, in order, for the walk. -/
def PyNode.children : PyNode → List PyNode
  | .functionDef _ _ _ _ body => body
  | .asyncFunctionDef _ _ _ _ body => body
  | .lambdaE body => body
  | .otherNode body => body

theorem sizeOf_children_lt (n : PyNode) : sizeOf n.children < sizeOf n := by
  cases n <;> simp [PyNode.children]

theorem sizeOf_append_le (l1 l2 : List PyNode) :
    sizeOf (l1 ++ l2) ≤ sizeOf l1 + sizeOf l2 := by
  induction l1 with
  | nil => simp
  | cons a t ih => simp only [List.cons_append, List.cons.sizeOf_spec]; omega

/-- `ast.walk`: breadth-first traversal, each node yielded before its
children (the Python implementation keeps a deque seeded with the root
and repeatedly pops the front and pushes its children at the back). -/
def walkBFS : List PyNode → List PyNode
  | [] => []
  | n :: q => n :: walkBFS (q ++ n.children)
termination_by q => sizeOf q
decreasing_by
  have h1 := sizeOf_append_le q n.children
  have h2 := sizeOf_children_lt n
  simp only [List.cons.sizeOf_spec]
  omega

/-- `for node in ast.walk(tree): if isinstance(node, ast.FunctionDef)`:
the plain function-definition nodes of a tree in walk order. -/
def collectDefs (tree : PyNode) : List FuncDefData :=
  (walkBFS [tree]).filterMap PyNode.asFunctionDef

/-! ## The external collaborators -/

/-- `open(filepath, ...).read()`: the error position carries an
`OSError` message. -/
abbrev Fs : Type := String → Except String String

/-- The Python `ast` library functions the extractors call.
`pyParse` is `ast.parse`, whose error position carries a `SyntaxError`
message; `getSeg` is `ast.get_source_segment`; `unparseD` is
`ast.unparse` applied to a `FunctionDef` node; `unparseE` is
`ast.unparse` applied to an annotation expression. -/
structure AstLib where
  pyParse : String → Except String PyNode
  getSeg : String → FuncDefData → Option String
  unparseD : FuncDefData → String
  unparseE : String → String

/-! ## The Function Builder (clepon: `extract_function_info_from_file`,
`extract_function_info_from_diff`; clepon_cli: `extract_function_info`) -/

/-- The argument loop shared by all three builders:
`for i, arg in enumerate(node.args.args): ...` with
`arg_type = ast.unparse(arg.annotation)` when the annotation is present,
and `id = f"{func_id}:arg:{i}"`. -/
def build_arguments (unparseE : String → String) (func_id : String) :
    Nat → List PyParam → List FunctionArgument
  | _, [] => []
  | i, a :: rest =>
    { id := func_id ++ ":arg:" ++ toString i,
      argument_name := a.arg,
      argument_type := a.annot.map unparseE } ::
      build_arguments unparseE func_id (i + 1) rest

/-- The `f"[red]Error parsing {filepath}: {exc}[/red]"` message printed
to the stderr console by both packages' `parse_python_file`. -/
def error_parsing_msg (filepath e : String) : String :=
  "[red]Error parsing " ++ filepath ++ ": " ++ e ++ "[/red]"

/-- clepon/services/project_service.py: `extract_function_info_from_file`.
It re-opens and re-reads the file itself (an `OSError` there escapes to
the caller), takes the basename of the path, slices the source segment
with a fallback to `ast.unparse`. -/
def extract_function_info_from_file (fs : Fs) (lib : AstLib)
    (node : FuncDefData) (filepath : String) : Except String Function :=
  let filename := path_name filepath
  let func_id := filename ++ ":" ++ node.nm ++ ":" ++ toString node.lineno
  match fs filepath with
  | .error e => .error e
  | .ok source =>
    let source_lines :=
      match lib.getSeg source node with
      | some s => s
      | none => lib.unparseD node
    .ok { id := func_id,
          source_code := source_lines,
          input := build_arguments lib.unparseE func_id 0 node.args.args,
          output_type := node.ret.map lib.unparseE,
          file := filename }

/-- clepon/services/project_service.py: `extract_function_info_from_diff`.
Same as the file builder but the origin text is passed in, so it is a
pure function. -/
def extract_function_info_from_diff (lib : AstLib) (node : FuncDefData)
    (filepath : String) (source_code : String) : Function :=
  let filename := path_name filepath
  let func_id := filename ++ ":" ++ node.nm ++ ":" ++ toString node.lineno
  let source_lines :=
    match lib.getSeg source_code node with
    | some s => s
    | none => lib.unparseD node
  { id := func_id,
    source_code := source_lines,
    input := build_arguments lib.unparseE func_id 0 node.args.args,
    output_type := node.ret.map lib.unparseE,
    file := filename }

/-- clepon_cli/services/project_service.py: `extract_function_info`.
Unlike the clepon builders it uses the full `filepath` string (not its
basename) both in `func_id` and in the `file` field, and re-reads the
file via `open(filepath).read()`. -/
def cli_extract_function_info (fs : Fs) (lib : AstLib)
    (node : FuncDefData) (filepath : String) : Except String Function :=
  let func_id := filepath ++ ":" ++ node.nm ++ ":" ++ toString node.lineno
  match fs filepath with
  | .error e => .error e
  | .ok source =>
    let source_lines :=
      match lib.getSeg source node with
      | some s => s
      | none => lib.unparseD node
    .ok { id := func_id,
          source_code := source_lines,
          input := build_arguments lib.unparseE func_id 0 node.args.args,
          output_type := node.ret.map lib.unparseE,
          file := filepath }

/-! ## The Whole-File Extractor (`parse_python_file`, both packages) -/

/-- The collection loop of clepon's `parse_python_file`: build a record
for each walked `FunctionDef`, appending to `functions`; if a builder
call raises, the records collected so far and the exception are what the
enclosing `try` observes. -/
def extract_loop (fs : Fs) (lib : AstLib) (filepath : String) :
    List FuncDefData → List Function → List Function × Option String
  | [], acc => (acc, none)
  | d :: rest, acc =>
    match extract_function_info_from_file fs lib d filepath with
    | .ok f => extract_loop fs lib filepath rest (acc ++ [f])
    | .error e => (acc, some e)

/-- Same loop for clepon_cli (its builder differs). -/
def cli_extract_loop (fs : Fs) (lib : AstLib) (filepath : String) :
    List FuncDefData → List Function → List Function × Option String
  | [], acc => (acc, none)
  | d :: rest, acc =>
    match cli_extract_function_info fs lib d filepath with
    | .ok f => cli_extract_loop fs lib filepath rest (acc ++ [f])
    | .error e => (acc, some e)

/-- clepon/services/project_service.py: `parse_python_file`.
The whole body is wrapped in `try ... except OSError as exc:` which
prints the error message and falls through to `return functions`.
An `OSError` (from either read) is therefore caught and logged, but a
`SyntaxError` raised by `ast.parse` is *not* caught: it propagates to
the caller, which the `Except` error position records.
The result pairs the returned list with the list of logged messages. -/
def parse_python_file (fs : Fs) (lib : AstLib) (filepath : String) :
    Except String (List Function × List String) :=
  match fs filepath with
  | .error e => .ok ([], [error_parsing_msg filepath e])
  | .ok content =>
    match lib.pyParse content with
    | .error e => .error e
    | .ok tree =>
      match extract_loop fs lib filepath (collectDefs tree) [] with
      | (fns, some e) => .ok (fns, [error_parsing_msg filepath e])
      | (fns, none) => .ok (fns, [])

/-- clepon_cli/services/project_service.py: `parse_python_file`.
Identical shape, but the handler is `except Exception as e:` so every
failure (read or parse) is caught and logged; nothing propagates. -/
def cli_parse_python_file (fs : Fs) (lib : AstLib) (filepath : String) :
    List Function × List String :=
  match fs filepath with
  | .error e => ([], [error_parsing_msg filepath e])
  | .ok content =>
    match lib.pyParse content with
    | .error e => ([], [error_parsing_msg filepath e])
    | .ok tree =>
      match cli_extract_loop fs lib filepath (collectDefs tree) [] with
      | (fns, some e) => (fns, [error_parsing_msg filepath e])
      | (fns, none) => (fns, [])

/-! ## File discovery (`find_python_files`, both packages)

A directory tree is modeled by the list of relative paths (as component
lists) of the files it contains.  `Path.rglob("*.py")` yields every file
whose final component ends in `".py"`; pathlib's glob does not
special-case dot files or dot directories. -/

def rglob_py (entries : List (List String)) : List (List String) :=
  entries.filter fun p =>
    match p.reverse with
    | [] => false
    | last :: _ => py_endswith last ".py"

/-- clepon/services/project_service.py: `find_python_files`: the rglob
result minus every file whose path relative to the root has a component
starting with a dot. -/
def find_python_files (entries : List (List String)) : List (List String) :=
  (rglob_py entries).filter fun p =>
    !(p.any fun part => py_startswith part ".")

/-- clepon_cli/services/project_service.py: `find_python_files` is just
`list(directory.rglob("*.py"))`, with no hidden-path exclusion. -/
def cli_find_python_files (entries : List (List String)) : List (List String) :=
  rglob_py entries

/-- The discovery rule in the words of the specification (for C6):
exactly the files with the `.py` extension, excluding every path that
contains a component beginning with a dot. -/
def spec_find_python_files (entries : List (List String)) : List (List String) :=
  entries.filter fun p =>
    (match p.reverse with
     | [] => false
     | last :: _ => py_endswith last ".py")
    && !(p.any fun part => py_startswith part ".")

/-! ## The Diff Extractor (clepon: `parse_diff_output`) -/

/-- The mutable state of `parse_diff_output`'s line loop. -/
structure DiffState where
  current_file : Option String
  current_block : List String
  added_code_blocks : List (String × String)
deriving DecidableEq

/-- One iteration of the `for line in lines:` loop of
`parse_diff_output`:

* `if line.startswith("+++ b/"):` take the path after the marker as the
  current file, set to `None` when it does not end in `.py` — note this
  branch does not touch `current_block`;
* `elif line.startswith("+") and not line.startswith("+++") and
  current_file:` append the line minus its marker to the block;
* `elif current_block and current_file:` flush the block as a
  `(current_file, "\n".join(current_block))` tuple.

Both `elif` branches require a truthy `current_file`, so when no source
file is current the line leaves the state unchanged. -/
def diff_step (st : DiffState) (line : String) : DiffState :=
  if py_startswith line "+++ b/" then
    let f := py_drop line 6
    { st with current_file := if py_endswith f ".py" then some f else none }
  else
    match st.current_file with
    | none => st
    | some f =>
      if py_startswith line "+" && !(py_startswith line "+++") then
        { st with current_block := st.current_block ++ [py_drop line 1] }
      else if !st.current_block.isEmpty then
        { st with
            current_block := [],
            added_code_blocks :=
              st.added_code_blocks ++ [(f, py_join_nl st.current_block)] }
      else st

def initial_diff_state : DiffState := ⟨none, [], []⟩

/-- The trailing `if current_block and current_file:` flush after the
loop ("don't forget the last block"). -/
def final_flush (st : DiffState) : List (String × String) :=
  match st.current_file with
  | some f =>
    if !st.current_block.isEmpty then
      st.added_code_blocks ++ [(f, py_join_nl st.current_block)]
    else st.added_code_blocks
  | none => st.added_code_blocks

/-- The `added_code_blocks` list that `parse_diff_output` accumulates
from a list of diff lines. -/
def parse_diff_blocks_lines (lines : List String) : List (String × String) :=
  final_flush (lines.foldl diff_step initial_diff_state)

/-- ... and from the diff text (`diff_output.split("\n")`). -/
def parse_diff_blocks (diff_output : String) : List (String × String) :=
  parse_diff_blocks_lines (py_split_nl diff_output)

/-- The second phase of `parse_diff_output`: parse each block, walk the
tree for `FunctionDef` nodes, build records; `except SyntaxError:
continue` skips a block whose parse fails (and `ast.parse`'s
parse-failure exception is exactly `SyntaxError`, the error position of
`AstLib.pyParse`). -/
def extract_from_blocks (lib : AstLib) : List (String × String) → List Function
  | [] => []
  | (filepath, code_block) :: rest =>
    match lib.pyParse code_block with
    | .ok tree =>
      ((collectDefs tree).map fun d =>
        extract_function_info_from_diff lib d filepath code_block)
        ++ extract_from_blocks lib rest
    | .error _ => extract_from_blocks lib rest

/-- clepon/services/project_service.py: `parse_diff_output`. -/
def parse_diff_output (lib : AstLib) (diff_output : String) : List Function :=
  extract_from_blocks lib (parse_diff_blocks diff_output)

/-! ## The fragment state machine in the words of the specification

For claim C2 the spec's sentences describe a machine over the diff's
lines; `spec_diff_machine` renders them literally: an added-content line
(prefix `+`, not the `+++` file-header marker) while a source file is
current contributes its marker-stripped content; *any other line* —
including a new-file marker — flushes a non-empty pending block as one
`(file, joined-text)` tuple and clears it; a marker line then switches
the current file; at end of input a non-empty pending block is flushed. -/
def spec_diff_machine :
    Option String → List String → List String → List (String × String)
  | file, block, [] =>
    (match file, block.isEmpty with
     | some f, false => [(f, py_join_nl block)]
     | _, _ => [])
  | file, block, line :: rest =>
    if py_startswith line "+" && !(py_startswith line "+++") && file.isSome then
      spec_diff_machine file (block ++ [py_drop line 1]) rest
    else
      (match file, block.isEmpty with
       | some f, false => [(f, py_join_nl block)]
       | _, _ => []) ++
      spec_diff_machine
        (if py_startswith line "+++ b/" then
          (if py_endswith (py_drop line 6) ".py" then some (py_drop line 6)
           else none)
         else file)
        [] rest

/-- The fragment tuples of a diff text according to the spec's machine. -/
def spec_parse_diff_blocks (diff_output : String) : List (String × String) :=
  spec_diff_machine none [] (py_split_nl diff_output)

/-- The machine the code actually implements, stated recursively (for
the amended claim C2): a new-file marker line switches the current file
*without* flushing, carrying the pending block over; any other
non-added line flushes — and clears — the pending block only when the
block is non-empty *and* a source file is current, and otherwise leaves
the state untouched (in particular a pending block retained while no
source file is current is kept, not discarded); the end-of-input flush
also requires a current source file. -/
def amended_diff_machine :
    Option String → List String → List String → List (String × String)
  | file, block, [] =>
    (match file, block.isEmpty with
     | some f, false => [(f, py_join_nl block)]
     | _, _ => [])
  | file, block, line :: rest =>
    if py_startswith line "+++ b/" then
      amended_diff_machine
        (if py_endswith (py_drop line 6) ".py" then some (py_drop line 6)
         else none)
        block rest
    else if py_startswith line "+" && !(py_startswith line "+++")
        && file.isSome then
      amended_diff_machine file (block ++ [py_drop line 1]) rest
    else
      match file, block.isEmpty with
      | some f, false => (f, py_join_nl block) :: amended_diff_machine file [] rest
      | _, _ => amended_diff_machine file block rest

/-- For claim C9: the marker-stripped added lines that a diff's own
sectioning attributes to the file `f` — the `+`-lines (not `+++`) that
occur while `f` is the current post-image source file. -/
def added_lines_for : Option String → List String → String → List String
  | _, [], _ => []
  | file, line :: rest, f =>
    if py_startswith line "+++ b/" then
      added_lines_for
        (if py_endswith (py_drop line 6) ".py" then some (py_drop line 6)
         else none)
        rest f
    else if py_startswith line "+" && !(py_startswith line "+++")
        && (file == some f) then
      py_drop line 1 :: added_lines_for file rest f
    else added_lines_for file rest f

def added_lines_in_section (diff_output f : String) : List String :=
  added_lines_for none (py_split_nl diff_output) f

/-! ## Concrete fixtures used by counterexamples and witnesses -/

/-- A filesystem on which every read succeeds with a fixed text. -/
def fs_const (text : String) : Fs := fun _ => .ok text

/-- A filesystem on which every read raises `OSError`. -/
def fs_unreadable : Fs := fun _ => .error "No such file or directory"

/-- An ast library whose parse always fails with a `SyntaxError`, as on
source text that is not valid Python. -/
def lib_syntax_error : AstLib :=
  { pyParse := fun _ => .error "invalid syntax",
    getSeg := fun _ _ => none,
    unparseD := fun _ => "",
    unparseE := fun s => s }

/-- An ast library for exercising the pure builders: the segment slice
is unavailable (forcing the `ast.unparse` fallback) and expression
unparsing returns the annotation key itself. -/
def lib_plain : AstLib :=
  { pyParse := fun _ => .error "unused",
    getSeg := fun _ _ => none,
    unparseD := fun _ => "def f(x): pass",
    unparseE := fun s => s }

/-- A `def f(x): pass` node at line 3. -/
def node_f3 : FuncDefData :=
  { nm := "f", lineno := 3,
    args := { posonlyargs := [], args := [{ arg := "x", annot := none }],
              vararg := none, kwonlyargs := [], kwarg := none },
    ret := none, body := [] }

/-- A node `def g(p, /, *, k): ...` at line 1: one positional-only and
one keyword-only parameter, and no plain positional parameter. -/
def node_no_plain_args : FuncDefData :=
  { nm := "g", lineno := 1,
    args := { posonlyargs := [{ arg := "p", annot := none }], args := [],
              vararg := none, kwonlyargs := [{ arg := "k", annot := none }],
              kwarg := none },
    ret := none, body := [] }

/-- The diff on which the marker-carry behaviour shows: an added line
under `a.py`, then a new-file marker for `b.py`, then a context line. -/
def diff_carry : String := "+++ b/a.py\n+x\n+++ b/b.py\n z"

/-! ## Supporting lemmas -/

theorem build_arguments_length (u : String → String) (fid : String) :
    ∀ (ps : List PyParam) (i : Nat),
      (build_arguments u fid i ps).length = ps.length := by
  intro ps
  induction ps with
  | nil => intro i; rfl
  | cons a t ih => intro i; simp [build_arguments, ih]

theorem build_arguments_get? (u : String → String) (fid : String) :
    ∀ (ps : List PyParam) (i j : Nat),
      (build_arguments u fid i ps).get? j =
        (ps.get? j).map fun a =>
          { id := fid ++ ":arg:" ++ toString (i + j),
            argument_name := a.arg,
            argument_type := a.annot.map u } := by
  intro ps
  induction ps with
  | nil => intro i j; simp [build_arguments]
  | cons a t ih =>
    intro i j
    cases j with
    | zero => simp [build_arguments]
    | succ j' =>
      simp only [build_arguments, List.get?_cons_succ, ih]
      have : i + (j' + 1) = (i + 1) + j' := by omega
      rw [this]

theorem asFunctionDef_inv {n : PyNode} {d : FuncDefData}
    (h : n.asFunctionDef = some d) :
    n = PyNode.functionDef d.nm d.lineno d.args d.ret d.body := by
  cases n with
  | functionDef nm lineno args ret body =>
    simp [PyNode.asFunctionDef] at h
    subst h
    rfl
  | asyncFunctionDef nm lineno args ret body =>
    simp [PyNode.asFunctionDef] at h
  | lambdaE body => simp [PyNode.asFunctionDef] at h
  | otherNode body => simp [PyNode.asFunctionDef] at h

theorem collectDefs_eq_nil {t : PyNode}
    (h : ∀ n ∈ walkBFS [t], n.asFunctionDef = none) : collectDefs t = [] := by
  unfold collectDefs
  exact List.filterMap_eq_nil_iff.mpr h

/-! ## C1 -/

/-- C1: behaviour of `parse_python_file` on the two failure modes the
claim covers, evaluated at concrete inputs.  A file that cannot be read
(`OSError`) is logged and contributes an empty list in the clepon
pipeline, as claimed; but a readable file whose text fails to parse
makes clepon's `parse_python_file` — whose handler is `except OSError`
— let the `SyntaxError` from `ast.parse` propagate to the caller
(`.error` below), while the clepon_cli duplicate (`except Exception`)
logs it and returns the empty list as the claim states. -/
theorem C1_parse_failure_behaviour :
    parse_python_file (fs_const "def f(:") lib_syntax_error "bad.py" =
      .error "invalid syntax" ∧
    cli_parse_python_file (fs_const "def f(:") lib_syntax_error "bad.py" =
      ([], [error_parsing_msg "bad.py" "invalid syntax"]) ∧
    parse_python_file fs_unreadable lib_syntax_error "bad.py" =
      .ok ([], [error_parsing_msg "bad.py" "No such file or directory"]) :=
  ⟨rfl, rfl, rfl⟩

/-! ## C3 -/

/-- C3 counterexample: the clepon_cli builder (`extract_function_info`)
uses the full supplied path, not its basename: on `src/foo.py` the
produced record has `id = "src/foo.py:f:3"` and `file = "src/foo.py"`,
not the basename-built values the claim requires. -/
theorem C3_counterexample :
    cli_extract_function_info (fs_const "def f(x): pass") lib_plain node_f3
        "src/foo.py" =
      .ok { id := "src/foo.py:f:3",
            source_code := "def f(x): pass",
            input := [{ id := "src/foo.py:f:3:arg:0",
                        argument_name := "x", argument_type := none }],
            output_type := none,
            file := "src/foo.py" } ∧
    ¬ (("src/foo.py:f:3" : String) =
          path_name "src/foo.py" ++ ":" ++ "f" ++ ":" ++ toString (3 : Nat) ∧
        ("src/foo.py" : String) = path_name "src/foo.py") :=
  ⟨rfl, by decide⟩

/-- C3 amended: in the clepon package both builders derive `id` as
`{basename}:{name}:{lineno}` and set `file` to the basename; the
clepon_cli near-duplicate instead uses the full supplied filepath string
in both fields. -/
theorem C3_amended_ids :
    ∀ (fs : Fs) (lib : AstLib) (node : FuncDefData) (fp src : String)
      (r1 r2 : Function),
      ((extract_function_info_from_diff lib node fp src).id =
          path_name fp ++ ":" ++ node.nm ++ ":" ++ toString node.lineno ∧
        (extract_function_info_from_diff lib node fp src).file = path_name fp) ∧
      (extract_function_info_from_file fs lib node fp = .ok r1 →
        r1.id = path_name fp ++ ":" ++ node.nm ++ ":" ++ toString node.lineno ∧
        r1.file = path_name fp) ∧
      (cli_extract_function_info fs lib node fp = .ok r2 →
        r2.id = fp ++ ":" ++ node.nm ++ ":" ++ toString node.lineno ∧
        r2.file = fp) := by
  intro fs lib node fp src r1 r2
  refine ⟨⟨rfl, rfl⟩, ?_, ?_⟩
  · intro h
    cases hfs : fs fp with
    | error e => simp [extract_function_info_from_file, hfs] at h
    | ok content =>
      simp only [extract_function_info_from_file, hfs, Except.ok.injEq] at h
      subst h
      exact ⟨rfl, rfl⟩
  · intro h
    cases hfs : fs fp with
    | error e => simp [cli_extract_function_info, hfs] at h
    | ok content =>
      simp only [cli_extract_function_info, hfs, Except.ok.injEq] at h
      subst h
      exact ⟨rfl, rfl⟩

/-- The record built by clepon's whole-file builder for `node_f3` when
the file text is `"def f(x): pass"` and the segment slice fails. -/
def r_f3_file : Function :=
  { id := "foo.py:f:3",
    source_code := "def f(x): pass",
    input := [{ id := "foo.py:f:3:arg:0", argument_name := "x",
                argument_type := none }],
    output_type := none,
    file := "foo.py" }

/-- The record built by clepon_cli's builder in the same situation. -/
def r_f3_cli : Function :=
  { id := "src/foo.py:f:3",
    source_code := "def f(x): pass",
    input := [{ id := "src/foo.py:f:3:arg:0", argument_name := "x",
                argument_type := none }],
    output_type := none,
    file := "src/foo.py" }

theorem C3_amended_ids_witness :
    ((extract_function_info_from_diff lib_plain node_f3 "src/foo.py" "x").id =
        "foo.py:f:3" ∧ r_f3_file.file = "foo.py" ∧ r_f3_cli.file = "src/foo.py") := by
  have h := C3_amended_ids (fs_const "def f(x): pass") lib_plain node_f3
    "src/foo.py" "x" r_f3_file r_f3_cli
  have h1 := h.1.1
  have h2 := (h.2.1 rfl).2
  have h3 := (h.2.2 rfl).2
  exact ⟨h1, h2, h3⟩

/-! ## C4 -/

/-- All parameters a Python function declares, in declaration order
(positional-only, then plain positional, then `*vararg`, then
keyword-only, then `**kwarg`) — the Python grammar of `ast.arguments`. -/
def declared_params (a : PyArguments) : List PyParam :=
  a.posonlyargs ++ a.args ++ a.vararg.toList ++ a.kwonlyargs ++ a.kwarg.toList

/-- C4 counterexample: a node declaring one positional-only and one
keyword-only parameter (and no plain positional parameter) yields an
empty `input` sequence — not one `FunctionArgument` per declared
parameter. -/
theorem C4_counterexample :
    (extract_function_info_from_diff lib_plain node_no_plain_args "a.py"
        "src").input.length ≠
      (declared_params node_no_plain_args.args).length := by decide

/-- C4 amended: the Function Builder emits exactly one
`FunctionArgument` per parameter of the node's *plain positional*
parameter list (`node.args.args`), in that order, with id
`{function_id}:arg:{index}` and `argument_type` the printed annotation
text when present; positional-only, `*vararg`, keyword-only and
`**kwarg` parameters yield no `FunctionArgument`.  Stated for all three
builders. -/
theorem C4_amended_arguments :
    ∀ (fs : Fs) (lib : AstLib) (node : FuncDefData) (fp src : String)
      (r1 r2 : Function),
      ((extract_function_info_from_diff lib node fp src).input.length =
          node.args.args.length ∧
        ∀ i, (extract_function_info_from_diff lib node fp src).input.get? i =
          (node.args.args.get? i).map fun a =>
            { id := (extract_function_info_from_diff lib node fp src).id ++
                ":arg:" ++ toString i,
              argument_name := a.arg,
              argument_type := a.annot.map lib.unparseE }) ∧
      (extract_function_info_from_file fs lib node fp = .ok r1 →
        r1.input.length = node.args.args.length ∧
        ∀ i, r1.input.get? i =
          (node.args.args.get? i).map fun a =>
            { id := r1.id ++ ":arg:" ++ toString i,
              argument_name := a.arg,
              argument_type := a.annot.map lib.unparseE }) ∧
      (cli_extract_function_info fs lib node fp = .ok r2 →
        r2.input.length = node.args.args.length ∧
        ∀ i, r2.input.get? i =
          (node.args.args.get? i).map fun a =>
            { id := r2.id ++ ":arg:" ++ toString i,
              argument_name := a.arg,
              argument_type := a.annot.map lib.unparseE }) := by
  intro fs lib node fp src r1 r2
  refine ⟨⟨?_, ?_⟩, ?_, ?_⟩
  · exact build_arguments_length lib.unparseE _ node.args.args 0
  · intro i
    have h := build_arguments_get? lib.unparseE
      (path_name fp ++ ":" ++ node.nm ++ ":" ++ toString node.lineno)
      node.args.args 0 i
    simpa [extract_function_info_from_diff] using h
  · intro h
    cases hfs : fs fp with
    | error e => simp [extract_function_info_from_file, hfs] at h
    | ok content =>
      simp only [extract_function_info_from_file, hfs, Except.ok.injEq] at h
      subst h
      refine ⟨build_arguments_length lib.unparseE _ node.args.args 0, ?_⟩
      intro i
      have h := build_arguments_get? lib.unparseE
        (path_name fp ++ ":" ++ node.nm ++ ":" ++ toString node.lineno)
        node.args.args 0 i
      simpa using h
  · intro h
    cases hfs : fs fp with
    | error e => simp [cli_extract_function_info, hfs] at h
    | ok content =>
      simp only [cli_extract_function_info, hfs, Except.ok.injEq] at h
      subst h
      refine ⟨build_arguments_length lib.unparseE _ node.args.args 0, ?_⟩
      intro i
      have h := build_arguments_get? lib.unparseE
        (fp ++ ":" ++ node.nm ++ ":" ++ toString node.lineno)
        node.args.args 0 i
      simpa using h

theorem C4_amended_arguments_witness :
    (extract_function_info_from_diff lib_plain node_f3 "foo.py" "x").input.get? 0 =
      some { id := "foo.py:f:3:arg:0", argument_name := "x",
             argument_type := none } ∧
    r_f3_file.input.length = 1 := by
  have h := C4_amended_arguments (fs_const "def f(x): pass") lib_plain node_f3
    "foo.py" "x" r_f3_file r_f3_cli
  refine ⟨?_, (h.2.1 rfl).1⟩
  have h0 := h.1.2 0
  simpa using h0

/-! ## C5 -/

/-- C5: a fragment whose text fails to parse (`ast.parse` raises
`SyntaxError`) contributes nothing: the extraction over any block list
containing it equals the extraction over the same list without it —
the block is skipped silently (`except SyntaxError: continue`, a branch
that prints nothing) and processing continues with the remaining
fragments; no exception reaches the caller, as `extract_from_blocks` is
a total function into `List Function`. -/
theorem C5_failing_fragment_skipped :
    ∀ (lib : AstLib) (pre post : List (String × String)) (fp code e : String),
      lib.pyParse code = .error e →
      extract_from_blocks lib (pre ++ (fp, code) :: post) =
        extract_from_blocks lib (pre ++ post) := by
  intro lib pre post fp code e h
  induction pre with
  | nil => simp [extract_from_blocks, h]
  | cons b t ih =>
    obtain ⟨fp2, c2⟩ := b
    cases h2 : lib.pyParse c2 with
    | ok tree => simp [extract_from_blocks, h2, ih]
    | error e2 => simp [extract_from_blocks, h2, ih]

theorem C5_failing_fragment_skipped_witness :
    extract_from_blocks lib_syntax_error [("a.py", "    return x")] = [] :=
  C5_failing_fragment_skipped lib_syntax_error [] [] "a.py" "    return x"
    "invalid syntax" rfl

/-! ## C6 -/

/-- A model directory holding a single file `.git/a.py`. -/
def entries_hidden : List (List String) := [[".git", "a.py"]]

/-- C6 counterexample: `clepon_cli`'s `find_python_files` is
`list(directory.rglob("*.py"))` with no hidden-path exclusion, so it
returns the file under the dot directory that the claim excludes. -/
theorem C6_counterexample :
    cli_find_python_files entries_hidden ≠
      spec_find_python_files entries_hidden := by decide

/-- C6 amended: the clepon implementation returns exactly the `.py`
files found recursively, excluding every relative path with a component
beginning with a dot — the claimed discovery rule; the clepon_cli
duplicate performs no dot-component exclusion and differs from that
rule. -/
theorem C6_amended_discovery :
    (∀ entries, find_python_files entries = spec_find_python_files entries) ∧
    cli_find_python_files entries_hidden ≠
      spec_find_python_files entries_hidden := by
  constructor
  · intro entries
    unfold find_python_files rglob_py spec_find_python_files
    rw [List.filter_filter]
    apply List.filter_congr
    intro p _
    rw [Bool.and_comm]
  · decide

/-! ## C8 -/

/-- C8: `source_code` is the exact slice `ast.get_source_segment`
returns from the supplied origin text whenever that slice is available,
and otherwise the `ast.unparse` regeneration; both paths exist in both
clepon builders (the whole-file builder slices the re-read file text,
the diff builder slices the supplied fragment text). -/
theorem C8_source_recovery :
    ∀ (fs : Fs) (lib : AstLib) (node : FuncDefData) (fp src content : String)
      (r : Function),
      (∀ s, lib.getSeg src node = some s →
        (extract_function_info_from_diff lib node fp src).source_code = s) ∧
      (lib.getSeg src node = none →
        (extract_function_info_from_diff lib node fp src).source_code =
          lib.unparseD node) ∧
      (fs fp = .ok content → extract_function_info_from_file fs lib node fp = .ok r →
        (∀ s, lib.getSeg content node = some s → r.source_code = s) ∧
        (lib.getSeg content node = none → r.source_code = lib.unparseD node)) := by
  intro fs lib node fp src content r
  refine ⟨?_, ?_, ?_⟩
  · intro s hs; simp [extract_function_info_from_diff, hs]
  · intro hn; simp [extract_function_info_from_diff, hn]
  · intro hfs hok
    simp only [extract_function_info_from_file, hfs, Except.ok.injEq] at hok
    subst hok
    constructor
    · intro s hs; simp [hs]
    · intro hn; simp [hn]

/-- An ast library whose source segment is always available: the slice
returned is the whole origin text. -/
def lib_seg : AstLib :=
  { pyParse := fun _ => .error "unused",
    getSeg := fun src _ => some src,
    unparseD := fun _ => "regenerated",
    unparseE := fun s => s }

theorem C8_source_recovery_witness :
    (extract_function_info_from_diff lib_seg node_f3 "foo.py"
        "def f(x): pass").source_code = "def f(x): pass" ∧
    (extract_function_info_from_diff lib_plain node_f3 "foo.py"
        "def f(x): pass").source_code = lib_plain.unparseD node_f3 := by
  constructor
  · exact (C8_source_recovery (fs_const "t") lib_seg node_f3 "foo.py"
      "def f(x): pass" "t" r_f3_file).1 "def f(x): pass" rfl
  · exact (C8_source_recovery (fs_const "t") lib_plain node_f3 "foo.py"
      "def f(x): pass" "t" r_f3_file).2.1 rfl

/-! ## C7 -/

/-- While no source file is current, and no line of the input ever
names a `.py` post-image file, every line leaves the loop state
unchanged. -/
theorem foldl_no_py_markers :
    ∀ (ls : List String) (st : DiffState),
      st.current_file = none →
      (∀ line ∈ ls, py_startswith line "+++ b/" = true →
        py_endswith (py_drop line 6) ".py" = false) →
      ls.foldl diff_step st = st := by
  intro ls
  induction ls with
  | nil => intro st _ _; rfl
  | cons line rest ih =>
    intro st hf hls
    obtain ⟨file, block, acc⟩ := st
    simp only at hf
    subst hf
    have hstep : diff_step ⟨none, block, acc⟩ line = ⟨none, block, acc⟩ := by
      unfold diff_step
      cases hm : py_startswith line "+++ b/" with
      | true =>
        have hpy := hls line (by simp) hm
        simp [hpy]
      | false => simp
    rw [List.foldl_cons, hstep]
    exact ih ⟨none, block, acc⟩ rfl (fun l hl => hls l (by simp [hl]))

/-- C7: a diff none of whose lines is a `+++ b/` marker naming a `.py`
path — which covers both a diff with no expected structural markers at
all and a diff touching only non-source files — produces no fragment
tuples and an empty function list, with no error (the extractor is a
total function). -/
theorem C7_no_source_markers_empty :
    ∀ (lib : AstLib) (diff_output : String),
      (∀ line ∈ py_split_nl diff_output,
        py_startswith line "+++ b/" = true →
        py_endswith (py_drop line 6) ".py" = false) →
      parse_diff_output lib diff_output = [] ∧
      parse_diff_blocks diff_output = [] := by
  intro lib d h
  have hfold := foldl_no_py_markers (py_split_nl d) initial_diff_state rfl h
  have hblocks : parse_diff_blocks d = [] := by
    unfold parse_diff_blocks parse_diff_blocks_lines
    rw [hfold]
    rfl
  constructor
  · unfold parse_diff_output
    rw [hblocks]
    rfl
  · exact hblocks

theorem C7_no_source_markers_empty_witness :
    parse_diff_output lib_plain "+++ b/README.md\n+hello" = [] :=
  (C7_no_source_markers_empty lib_plain "+++ b/README.md\n+hello"
    (by decide)).1

/-! ## C2 -/

/-- C2 counterexample: on `diff_carry` the code's block collection and
the spec's state machine disagree.  The spec's machine flushes the
pending `a.py` block when the `+++ b/b.py` marker (an "other line")
arrives, yielding `("a.py", "x")`; the code's marker branch does not
flush, so the pending content is carried over and later flushed under
`b.py`. -/
theorem C2_counterexample :
    parse_diff_blocks diff_carry = [("b.py", "x")] ∧
    spec_parse_diff_blocks diff_carry = [("a.py", "x")] ∧
    parse_diff_blocks diff_carry ≠ spec_parse_diff_blocks diff_carry := by
  refine ⟨by decide, by decide, by decide⟩

/-- The loop of `parse_diff_output`, started in any state, agrees with
the amended machine. -/
theorem amended_machine_correct :
    ∀ (ls : List String) (st : DiffState),
      final_flush (ls.foldl diff_step st) =
        st.added_code_blocks ++
          amended_diff_machine st.current_file st.current_block ls := by
  intro ls
  induction ls with
  | nil =>
    intro st
    obtain ⟨file, block, acc⟩ := st
    simp only [List.foldl_nil]
    unfold final_flush amended_diff_machine
    cases file with
    | none => simp
    | some f => cases hb : block.isEmpty <;> simp [hb]
  | cons line rest ih =>
    intro st
    obtain ⟨file, block, acc⟩ := st
    rw [List.foldl_cons]
    by_cases hm : py_startswith line "+++ b/"
    · have hstep : diff_step ⟨file, block, acc⟩ line =
          ⟨if py_endswith (py_drop line 6) ".py" then some (py_drop line 6)
            else none, block, acc⟩ := by
        unfold diff_step; simp [hm]
      rw [hstep, ih]
      simp [amended_diff_machine, hm]
    · cases file with
      | none =>
        have hstep : diff_step ⟨none, block, acc⟩ line = ⟨none, block, acc⟩ := by
          unfold diff_step; simp [hm]
        rw [hstep, ih]
        simp [amended_diff_machine, hm]
      | some f =>
        by_cases ha : (py_startswith line "+" && !(py_startswith line "+++")) = true
        · have hstep : diff_step ⟨some f, block, acc⟩ line =
              ⟨some f, block ++ [py_drop line 1], acc⟩ := by
            unfold diff_step; simp [hm, ha]
          rw [hstep, ih]
          simp [amended_diff_machine, hm, ha]
        · cases hb : block.isEmpty with
          | false =>
            have hstep : diff_step ⟨some f, block, acc⟩ line =
                ⟨some f, [], acc ++ [(f, py_join_nl block)]⟩ := by
              unfold diff_step; simp [hm, ha, hb]
            rw [hstep, ih]
            simp [amended_diff_machine, hm, ha, hb]
          | true =>
            have hstep : diff_step ⟨some f, block, acc⟩ line =
                ⟨some f, block, acc⟩ := by
              unfold diff_step; simp [hm, ha, hb]
            rw [hstep, ih]
            simp [amended_diff_machine, hm, ha, hb]

/-- C2 amended: `parse_diff_output` builds its fragments by the claimed
state machine amended in one point — a new-file marker line switches
the current file *without* flushing the pending block (carrying it
over), a non-marker "other" line flushes only when the pending block is
non-empty and a source file is current, and the end-of-input flush also
requires a current source file. -/
theorem C2_amended_machine :
    ∀ diff_output, parse_diff_blocks diff_output =
      amended_diff_machine none [] (py_split_nl diff_output) := by
  intro d
  have h := amended_machine_correct (py_split_nl d) initial_diff_state
  simpa [parse_diff_blocks, parse_diff_blocks_lines, initial_diff_state] using h

/-! ## C9 -/

/-- C9 counterexample: on `diff_carry` the code emits the fragment
`("b.py", "x")`, yet the line `x` was added while `a.py` was the
current file — the diff's own sectioning attributes no added line at
all to `b.py`. -/
theorem C9_counterexample :
    ("b.py", "x") ∈ parse_diff_blocks diff_carry ∧
    "x" ∈ py_split_nl "x" ∧
    "x" ∉ added_lines_in_section diff_carry "b.py" := by
  refine ⟨by decide, by decide, by decide⟩

/-- A run of added lines while a source file is current accumulates
its marker-stripped contents onto the pending block, in order, touching
nothing else. -/
theorem foldl_added_run :
    ∀ (ys : List String) (st : DiffState) (f : String),
      st.current_file = some f →
      (∀ y ∈ ys, py_startswith y "+++ b/" = false ∧
        py_startswith y "+" = true ∧ py_startswith y "+++" = false) →
      ys.foldl diff_step st =
        ⟨some f, st.current_block ++ ys.map (fun y => py_drop y 1),
          st.added_code_blocks⟩ := by
  intro ys
  induction ys with
  | nil =>
    intro st f hf _
    obtain ⟨file, block, acc⟩ := st
    simp only at hf
    subst hf
    simp
  | cons y t ih =>
    intro st f hf hys
    obtain ⟨file, block, acc⟩ := st
    simp only at hf
    subst hf
    obtain ⟨h1, h2, h3⟩ := hys y (by simp)
    have hstep : diff_step ⟨some f, block, acc⟩ y =
        ⟨some f, block ++ [py_drop y 1], acc⟩ := by
      unfold diff_step; simp [h1, h2, h3]
    rw [List.foldl_cons, hstep,
      ih ⟨some f, block ++ [py_drop y 1], acc⟩ f rfl
        (fun l hl => hys l (by simp [hl]))]
    simp

/-- C9 amended: pending-block content *is* carried across a new-file
marker: for any non-empty run of added lines appearing under `a.py`
followed by a marker for `b.py` and a context line, the whole run is
flushed as a single fragment attributed to `b.py` — the fragment's file
tag is the file current at flush time, not the file under which the
lines were added. -/
theorem C9_amended_carry :
    ∀ (ys : List String), ys ≠ [] →
      (∀ y ∈ ys, py_startswith y "+++ b/" = false ∧
        py_startswith y "+" = true ∧ py_startswith y "+++" = false) →
      parse_diff_blocks_lines (["+++ b/a.py"] ++ ys ++ ["+++ b/b.py", " z"]) =
        [("b.py", py_join_nl (ys.map fun y => py_drop y 1))] := by
  intro ys hne hys
  unfold parse_diff_blocks_lines
  rw [List.foldl_append, List.foldl_append]
  have hm1 : List.foldl diff_step initial_diff_state ["+++ b/a.py"] =
      ⟨some "a.py", [], []⟩ := by decide
  rw [hm1, foldl_added_run ys ⟨some "a.py", [], []⟩ "a.py" rfl hys]
  have hblk : (([] : List String) ++ ys.map fun y => py_drop y 1).isEmpty = false := by
    cases ys with
    | nil => exact absurd rfl hne
    | cons a t => simp
  have hstep2 : diff_step ⟨some "a.py", [] ++ ys.map fun y => py_drop y 1, []⟩
      "+++ b/b.py" = ⟨some "b.py", [] ++ ys.map fun y => py_drop y 1, []⟩ := by
    unfold diff_step
    simp [show py_startswith "+++ b/b.py" "+++ b/" = true from by decide,
      show py_drop "+++ b/b.py" 6 = "b.py" from by decide,
      show py_endswith "b.py" ".py" = true from by decide]
  have hstep3 : diff_step ⟨some "b.py", [] ++ ys.map fun y => py_drop y 1, []⟩
      " z" = ⟨some "b.py", [],
        [("b.py", py_join_nl ([] ++ ys.map fun y => py_drop y 1))]⟩ := by
    unfold diff_step
    simp [show py_startswith " z" "+++ b/" = false from by decide,
      show py_startswith " z" "+" = false from by decide, hblk, hne]
  rw [show (["+++ b/b.py", " z"] : List String) = ["+++ b/b.py"] ++ [" z"]
    from rfl, List.foldl_append]
  simp only [List.foldl_cons, List.foldl_nil, hstep2, hstep3]
  simp [final_flush]

theorem C9_amended_carry_witness :
    parse_diff_blocks_lines ["+++ b/a.py", "+x", "+++ b/b.py", " z"] =
      [("b.py", "x")] := by
  have h := C9_amended_carry ["+x"] (by decide) (by decide)
  simpa using h

/-! ## C10 -/

theorem extract_from_blocks_eq_nil (lib : AstLib) :
    ∀ (blocks : List (String × String)),
      (∀ b ∈ blocks, ∀ t, lib.pyParse b.2 = .ok t → collectDefs t = []) →
      extract_from_blocks lib blocks = [] := by
  intro blocks
  induction blocks with
  | nil => intro _; rfl
  | cons b rest ih =>
    intro h
    obtain ⟨fp, code⟩ := b
    cases hp : lib.pyParse code with
    | ok tree =>
      have hc := h (fp, code) (by simp) tree hp
      simp [extract_from_blocks, hp, hc, ih (fun b hb => h b (by simp [hb]))]
    | error e =>
      simp [extract_from_blocks, hp, ih (fun b hb => h b (by simp [hb]))]

theorem extract_from_blocks_origin :
    ∀ (lib : AstLib) (blocks : List (String × String)) (f : Function),
      f ∈ extract_from_blocks lib blocks →
      ∃ fp code t d, (fp, code) ∈ blocks ∧ lib.pyParse code = .ok t ∧
        PyNode.functionDef d.nm d.lineno d.args d.ret d.body ∈ walkBFS [t] ∧
        f = extract_function_info_from_diff lib d fp code := by
  intro lib blocks
  induction blocks with
  | nil => intro f hf; simp [extract_from_blocks] at hf
  | cons b rest ih =>
    intro f hf
    obtain ⟨fp, code⟩ := b
    cases hp : lib.pyParse code with
    | ok tree =>
      simp only [extract_from_blocks, hp, List.mem_append] at hf
      cases hf with
      | inl hmap =>
        obtain ⟨d, hd, hfd⟩ := List.mem_map.mp hmap
        obtain ⟨n, hn, hnd⟩ := List.mem_filterMap.mp hd
        have hform := asFunctionDef_inv hnd
        exact ⟨fp, code, tree, d, by simp, hp, hform ▸ hn, hfd.symm⟩
      | inr hrest =>
        obtain ⟨fp2, code2, t2, d, hmem, hpp, hwn, heq⟩ := ih f hrest
        exact ⟨fp2, code2, t2, d, by simp [hmem], hpp, hwn, heq⟩
    | error e =>
      simp only [extract_from_blocks, hp] at hf
      obtain ⟨fp2, code2, t2, d, hmem, hpp, hwn, heq⟩ := ih f hf
      exact ⟨fp2, code2, t2, d, by simp [hmem], hpp, hwn, heq⟩

/-- C10: both pipelines produce records only for plain (synchronous)
function-definition nodes.  When every walked node of the parsed tree
fails the `isinstance(node, ast.FunctionDef)` test — as on an input
whose definitions are all `async def`s or lambdas — the whole-file
extractors of both packages return no records and no log entries, and
the diff extractor returns no records; moreover every record the diff
extractor ever emits originates from a walked plain `FunctionDef`
node. -/
theorem C10_plain_defs_only :
    ∀ (fs : Fs) (lib : AstLib) (fp content : String) (t : PyNode)
      (diff_output : String),
      fs fp = .ok content → lib.pyParse content = .ok t →
      (∀ n ∈ walkBFS [t], n.asFunctionDef = none) →
      (∀ b ∈ parse_diff_blocks diff_output, ∀ t2, lib.pyParse b.2 = .ok t2 →
        ∀ n ∈ walkBFS [t2], n.asFunctionDef = none) →
      parse_python_file fs lib fp = .ok ([], []) ∧
      cli_parse_python_file fs lib fp = ([], []) ∧
      parse_diff_output lib diff_output = [] ∧
      (∀ (lib2 : AstLib) (blocks : List (String × String)) (f : Function),
        f ∈ extract_from_blocks lib2 blocks →
        ∃ fp2 code t2 d, (fp2, code) ∈ blocks ∧ lib2.pyParse code = .ok t2 ∧
          PyNode.functionDef d.nm d.lineno d.args d.ret d.body ∈ walkBFS [t2] ∧
          f = extract_function_info_from_diff lib2 d fp2 code) := by
  intro fs lib fp content t diff h1 h2 h3 h4
  have hc : collectDefs t = [] := collectDefs_eq_nil h3
  refine ⟨?_, ?_, ?_, extract_from_blocks_origin⟩
  · simp [parse_python_file, h1, h2, hc, extract_loop]
  · simp [cli_parse_python_file, h1, h2, hc, cli_extract_loop]
  · unfold parse_diff_output
    exact extract_from_blocks_eq_nil lib (parse_diff_blocks diff)
      (fun b hb t2 hp => collectDefs_eq_nil (h4 b hb t2 hp))

/-- An empty `ast.arguments`. -/
def pyargs_empty : PyArguments := ⟨[], [], none, [], none⟩

/-- A module whose only definitions are an `async def` and a lambda. -/
def tree_async_lambda : PyNode :=
  .otherNode [.asyncFunctionDef "g" 1 pyargs_empty none [],
    .otherNode [.lambdaE []]]

def lib_async : AstLib :=
  { pyParse := fun _ => .ok tree_async_lambda,
    getSeg := fun _ _ => none,
    unparseD := fun _ => "",
    unparseE := fun s => s }

def diff_async : String := "+++ b/a.py\n+async def g(): pass\n z"

theorem walk_async_no_defs :
    ∀ n ∈ walkBFS [tree_async_lambda], n.asFunctionDef = none := by
  have hw : walkBFS [tree_async_lambda] =
      [tree_async_lambda,
        PyNode.asyncFunctionDef "g" 1 pyargs_empty none [],
        PyNode.otherNode [PyNode.lambdaE []],
        PyNode.lambdaE []] := by
    simp [walkBFS, tree_async_lambda, PyNode.children]
  rw [hw]
  intro n hn
  simp only [List.mem_cons, List.not_mem_nil, or_false] at hn
  rcases hn with rfl | rfl | rfl | rfl <;> rfl

theorem C10_plain_defs_only_witness :
    cli_parse_python_file (fs_const "async def g(): pass") lib_async "a.py" =
      ([], []) ∧
    parse_diff_output lib_async diff_async = [] := by
  have hb : ∀ b ∈ parse_diff_blocks diff_async, ∀ t2,
      lib_async.pyParse b.2 = .ok t2 →
      ∀ n ∈ walkBFS [t2], n.asFunctionDef = none := by
    intro b hb t2 ht2
    simp only [lib_async, Except.ok.injEq] at ht2
    rw [← ht2]
    exact walk_async_no_defs
  have h := C10_plain_defs_only (fs_const "async def g(): pass") lib_async
    "a.py" "async def g(): pass" tree_async_lambda diff_async rfl rfl
    walk_async_no_defs hb
  exact ⟨h.2.1, h.2.2.1⟩
